import Mathlib

/-!
Verification of the qvh-printing reporting core.

Shallow embedding of the repository's Python sources:

* `src/reporting/config.py` — `ReportPageConfig` (pydantic model with the
  `validate_measure` field validator), `get_page_config`, `validate_config`,
  `load_report_config`;
* `src/reporting/pbi.py` — `get_report_page` (export request construction,
  poll loop, file download) and `get_all_pages` (chunked orchestration and
  per-page output file naming);
* `src/reporting/ppt.py` — `copy_slide`, `merge_presentations` (output path
  computation);
* `src/reporting/main.py` — the call sequence around the merge/notify steps.

External effects (HTTP responses, the SQL query result, the filesystem) are
passed in explicitly as values; machine strings are `String`/`List Char`,
Python ints are `Int`/`Nat`; fallible Python code returns `Except`/`Option`.
-/

namespace QVH

/-! ## Python string primitives

The Python functions under embed rely on `str.zfill`, `str.replace`, decimal
`str(int)`, and lexicographic string comparison (`sorted`).  These are
modelled directly on `List Char` / `String` so that they evaluate in the
kernel. -/

/-- Fueled helper for `pyDigits`; the fuel is structural so the definition
evaluates inside the kernel, and any fuel above `n` gives the same value
(`pyDigitsAux_irrel`). -/
def pyDigitsAux (fuel n : Nat) : List Char :=
  match fuel with
  | 0 => []
  | fuel + 1 =>
    if n < 10 then [Nat.digitChar n]
    else pyDigitsAux fuel (n / 10) ++ [Nat.digitChar (n % 10)]

/-- Decimal digit list (most significant first) of a natural number, as
produced by Python `str(n)` for `n >= 0`; `pyDigits 0 = ['0']`. -/
def pyDigits (n : Nat) : List Char :=
  pyDigitsAux (n + 1) n

/-- Python `str(n)` for a natural number. -/
def pyNatStr (n : Nat) : String :=
  String.mk (pyDigits n)

/-- Evaluates a decimal digit list back to the number it denotes (used only to
prove `pyDigits` injective). -/
def parseDigits (cs : List Char) : Nat :=
  cs.foldl (fun acc c => acc * 10 + (c.toNat - 48)) 0

/-- Python `s.zfill(width)` for a string with no leading sign: pad on the left
with zeros up to `width`. -/
def zfill (width : Nat) (s : String) : String :=
  if width ≤ s.length then s
  else String.mk (List.replicate (width - s.length) '0') ++ s

/-- Python lexicographic `<` on code-point lists (the order used by `sorted`
and by `<` on `str`). -/
def pyLexLt : List Char → List Char → Bool
  | [], [] => false
  | [], _ :: _ => true
  | _ :: _, [] => false
  | a :: as, b :: bs =>
    if a.toNat < b.toNat then true
    else if b.toNat < a.toNat then false
    else pyLexLt as bs

/-- Python `s < t` on strings. -/
def pyStrLt (s t : String) : Bool :=
  pyLexLt s.data t.data

/-- Fueled replacement of every (leftmost, non-overlapping) occurrence of the
non-empty pattern `pat` by `rep`, as Python `str.replace` does for a non-empty
pattern.  Every step consumes at least one character of the input, so fuel
`cs.length + 1` (as supplied by `pyReplace`) never runs out. -/
def pyReplaceAux (pat rep : List Char) : Nat → List Char → List Char
  | 0, cs => cs
  | _ + 1, [] => []
  | fuel + 1, c :: cs =>
    if !pat.isEmpty && pat.isPrefixOf (c :: cs) then
      rep ++ pyReplaceAux pat rep fuel ((c :: cs).drop pat.length)
    else
      c :: pyReplaceAux pat rep fuel cs

/-- Python `s.replace(pat, rep)` (for the non-empty patterns used in the
repository). -/
def pyReplace (s pat rep : String) : String :=
  String.mk (pyReplaceAux pat.data rep.data (s.data.length + 1) s.data)

/-! ## Config Loader — `src/reporting/config.py`

`ReportPageConfig` is a pydantic model; constructing one runs the
`validate_measure` field validator on `measureId`.  `get_page_config` turns
the SQL query result (passed in here as a list of rows) into dicts and raises
`ValueError` when the result set is empty.  `validate_config` constructs the
models one by one; the first pydantic validation error aborts it. -/

/-- Row of the configuration query result (the dict
`{pageName, displayName, pageOrder, measureId, comparativeMeasureId}`
produced by `config.to_dict(orient="records")` in `get_page_config`). -/
structure ConfigRow where
  pageName : String
  displayName : String
  pageOrder : Nat
  measureId : Option String
  comparativeMeasureId : Option String
deriving DecidableEq

/-- Validated `ReportPageConfig` (the pydantic model in
`src/reporting/config.py`). -/
structure ReportPageConfig where
  pageName : String
  displayName : String
  pageOrder : Nat
  measureId : Option String
  comparativeMeasureId : Option String
deriving DecidableEq

/-- Codepoint ranges (inclusive) matched by Python's `\d` in a `str` pattern:
the Unicode decimal digits, category `Nd` (Unicode 14.0, the character
database CPython's `re` consults).  The first range is ASCII `0`–`9`; the
rest are the decimal-digit runs of the other scripts, e.g. `1632`–`1641` is
Arabic-Indic `٠`–`٩`. -/
def pyDecimalDigitRanges : List (Nat × Nat) :=
  [(48, 57), (1632, 1641), (1776, 1785), (1984, 1993), (2406, 2415),
   (2534, 2543), (2662, 2671), (2790, 2799), (2918, 2927), (3046, 3055),
   (3174, 3183), (3302, 3311), (3430, 3439), (3558, 3567), (3664, 3673),
   (3792, 3801), (3872, 3881), (4160, 4169), (4240, 4249), (6112, 6121),
   (6160, 6169), (6470, 6479), (6608, 6617), (6784, 6793), (6800, 6809),
   (6992, 7001), (7088, 7097), (7232, 7241), (7248, 7257), (42528, 42537),
   (43216, 43225), (43264, 43273), (43472, 43481), (43504, 43513),
   (43600, 43609), (44016, 44025), (65296, 65305), (66720, 66729),
   (68912, 68921), (69734, 69743), (69872, 69881), (69942, 69951),
   (70096, 70105), (70384, 70393), (70736, 70745), (70864, 70873),
   (71248, 71257), (71360, 71369), (71472, 71481), (71904, 71913),
   (72016, 72025), (72784, 72793), (73040, 73049), (73120, 73129),
   (92768, 92777), (92864, 92873), (93008, 93017), (120782, 120831),
   (123200, 123209), (123632, 123641), (125264, 125273), (130032, 130041)]

/-- Python `\d` on one character of a `str` pattern without `re.ASCII`: any
Unicode decimal digit (category `Nd`), not only ASCII `0`–`9`. -/
def pyIsDecimalDigit (c : Char) : Bool :=
  pyDecimalDigitRanges.any (fun r => r.1 ≤ c.toNat && c.toNat ≤ r.2)

/-- Result of Python `re.match(r"^BR\d\x7b3\x7d$", s) is not None`.
Python semantics: `\d` matches any Unicode decimal digit (category `Nd`,
`pyIsDecimalDigit`), and `$` without `re.MULTILINE` matches at the end of
the string or just before a single trailing newline — so `"BR123\n"`
matches as well as `"BR123"`, and so does `BR` followed by three
Arabic-Indic digits. -/
def brMatch (s : String) : Bool :=
  match s.data with
  | ['B', 'R', a, b, c] =>
    pyIsDecimalDigit a && pyIsDecimalDigit b && pyIsDecimalDigit c
  | ['B', 'R', a, b, c, nl] =>
    pyIsDecimalDigit a && pyIsDecimalDigit b && pyIsDecimalDigit c &&
      nl == '\n'
  | _ => false

/-- Format the spec's words describe for `measureId`: the two letters `BR`
followed by exactly three digits `0`–`9` (stated for comparison with the
source's `brMatch`). -/
def specMeasureIdFormat (s : String) : Bool :=
  match s.data with
  | ['B', 'R', a, b, c] => a.isDigit && b.isDigit && c.isDigit
  | _ => false

/-- The `validate_measure` field validator: a truthy `measureId` (neither
`None` nor the empty string) that fails `re.match(r"^BR\d\x7b3\x7d$", value)`
raises `ValueError`; falsy values pass through unchecked. -/
def validate_measure (value : Option String) : Except String (Option String) :=
  match value with
  | none => .ok none
  | some s =>
    if s = "" then .ok (some s)
    else if brMatch s then .ok (some s)
    else .error "measureId must match the format \"BR\x7b3 digits int\x7d\""

/-- Construction of one pydantic `ReportPageConfig` from a config dict: runs
the `measureId` field validator and otherwise copies the fields. -/
def mkReportPageConfig (r : ConfigRow) : Except String ReportPageConfig :=
  match validate_measure r.measureId with
  | .error e => .error e
  | .ok m =>
    .ok { pageName := r.pageName, displayName := r.displayName,
          pageOrder := r.pageOrder, measureId := m,
          comparativeMeasureId := r.comparativeMeasureId }

/-- `get_page_config`, abstracted over the query result `read_sql` returns:
raises `ValueError("Specified page does not exist")` when the result set is
empty, and otherwise yields the records. -/
def get_page_config (queryResult : List ConfigRow) : Except String (List ConfigRow) :=
  if queryResult = [] then .error "Specified page does not exist"
  else .ok queryResult

/-- `validate_config`: builds the `ReportPageConfig` list row by row; the
first pydantic validation error propagates. -/
def validate_config : List ConfigRow → Except String (List ReportPageConfig)
  | [] => .ok []
  | r :: rs =>
    match mkReportPageConfig r with
    | .error e => .error e
    | .ok c =>
      match validate_config rs with
      | .error e => .error e
      | .ok cs => .ok (c :: cs)

/-- `load_report_config`: `get_page_config` followed by `validate_config`. -/
def load_report_config (queryResult : List ConfigRow) : Except String (List ReportPageConfig) :=
  match get_page_config queryResult with
  | .error e => .error e
  | .ok rows => validate_config rows

/-! ## Export request construction — `src/reporting/pbi.py`, `get_report_page`

The request body sent to the `ExportTo` endpoint: format `PPTX`, exactly one
page, and a report-level filter exactly when `page_config.measureId` is
truthy.  Both branches of the `comparativeMeasureId` test build the same
filter string (the comparative variant is a commented-out TODO in the
source). -/

/-- Body of the `ExportTo` POST request. -/
structure ExportRequest where
  format : String
  pages : List String
  reportLevelFilters : Option (List String)
deriving DecidableEq

/-- The filter expression `f"scd_Measure/Measure_ID in ('...')"`. -/
def filterString (measureId : String) : String :=
  "scd_Measure/Measure_ID in ('" ++ measureId ++ "')"

/-- Truthiness of an optional Python string (`if page_config.measureId:`):
`None` and the empty string are falsy. -/
def pyTruthy : Option String → Bool
  | none => false
  | some s => s != ""

/-- Request-body construction in `get_report_page` (lines 123–144 of
`src/reporting/pbi.py`). -/
def buildExportRequest (cfg : ReportPageConfig) : ExportRequest :=
  if pyTruthy cfg.measureId then
    if pyTruthy cfg.comparativeMeasureId then
      { format := "PPTX", pages := [cfg.pageName],
        reportLevelFilters := some [filterString (cfg.measureId.getD "")] }
    else
      { format := "PPTX", pages := [cfg.pageName],
        reportLevelFilters := some [filterString (cfg.measureId.getD "")] }
  else
    { format := "PPTX", pages := [cfg.pageName], reportLevelFilters := none }

/-! ## Presentation Merger output path — `src/reporting/ppt.py` and `main.py`

`merge_presentations` does not save at the `output_filename` it was given: it
saves at `output_filename.replace('.pptx', '.ppt')`.  `main.py` then hands
`f"{measure}_report.pptx"` — the unmodified name — to `send_email` as the
attachment path. -/

/-- Path `merge_presentations` actually saves to
(`output_ppt_path = output_filename.replace('.pptx', '.ppt')`). -/
def output_ppt_path (output_filename : String) : String :=
  pyReplace output_filename ".pptx" ".ppt"

/-- The `output_filename` argument `main.py` passes to `merge_presentations`
(`f"\x7bmeasure\x7d_report.pptx"`). -/
def mainMergeOutputArg (measure : String) : String :=
  measure ++ "_report.pptx"

/-- The attachment path `main.py` passes to `send_email` after the merge. -/
def mainAttachmentPath (measure : String) : String :=
  measure ++ "_report.pptx"

/-! ## Batch Orchestrator — `src/reporting/pbi.py`, `get_all_pages`

`get_all_pages` sets `chunk_size = min(report_len, chunk_size)` and iterates
`for i in range(0, report_len, chunk_size)`, taking the slice
`report_config[i : i + chunk_size]` as one chunk.  A zero step makes `range`
raise `ValueError("range() arg 3 must not be zero")` before any chunk is
issued; a negative step with `report_len >= 0` makes the range empty.  Each
page in a chunk is exported to
`f"\x7bppt_id\x7d/Page \x7bstr(page.pageOrder).zfill(2)\x7d.pptx"`. -/

/-- Python `range(0, stop, step)` for a positive `step`: the multiples of
`step` below `stop`, in increasing order. -/
def pyRangeStep (stop step : Nat) : List Nat :=
  (List.range stop).filter (fun i => i % step == 0)

/-- Chunk decomposition performed by `get_all_pages` (lines 206–211 of
`src/reporting/pbi.py`), with Python's `range` errors made explicit. -/
def get_all_pages_chunks (report_config : List ReportPageConfig) (chunk_size : Int) :
    Except String (List (List ReportPageConfig)) :=
  let report_len := report_config.length
  let eff : Int := min (report_len : Int) chunk_size
  if eff = 0 then .error "range() arg 3 must not be zero"
  else if eff < 0 then .ok []
  else
    .ok ((pyRangeStep report_len eff.toNat).map
      (fun i => (report_config.drop i).take eff.toNat))

/-- Per-page output path `f"\x7bppt_id\x7d/Page \x7b...zfill(2)\x7d.pptx"`
built in `get_all_pages` (line 215 of `src/reporting/pbi.py`). -/
def ppt_file_name (ppt_id : String) (pageOrder : Nat) : String :=
  ppt_id ++ "/Page " ++ zfill 2 (pyNatStr pageOrder) ++ ".pptx"

/-- Basename of the per-page output file as it appears to `os.listdir` in the
merge step. -/
def pageBaseName (pageOrder : Nat) : String :=
  "Page " ++ zfill 2 (pyNatStr pageOrder) ++ ".pptx"

/-! ## Export Client — `src/reporting/pbi.py`, `get_report_page`

The HTTP world is passed in as an `ExportEnv`: the submit (`POST ExportTo`)
response, the successive poll responses, the download response, and the
downloaded body (`None` when reading the body raises mid-transfer).
`HttpResp.err` stands for a response on which `raise_for_status()` raises.
The poll loop is driven by the finite list of poll responses; exhausting the
list without a terminal status models the loop still running (`none`). -/

/-- An HTTP response: `ok status body` when `raise_for_status()` passes,
`err code` when it raises. -/
inductive HttpResp (α : Type) where
  | ok (status : Nat) (body : α)
  | err (code : Nat)
deriving DecidableEq

/-- JSON body of a poll (`GET exports/\x7bexport_id\x7d`) response. -/
structure PollBody where
  status : String
  resourceLocation : String
  errorMessage : String
deriving DecidableEq

/-- Errors `get_report_page` can raise: HTTP errors from
`raise_for_status()`, `PBIExportError`, and a failure while reading the
download body. -/
inductive PBIError where
  | httpError (code : Nat)
  | exportError (msg : String)
  | readFailed
deriving DecidableEq

/-- Filesystem effects of `get_report_page`: `open(name, "wb")` creates (or
truncates) the file, `file.write` stores the bytes. -/
inductive FsEvent where
  | created (name : String)
  | wrote (name : String) (bytes : List Nat)
deriving DecidableEq

/-- External responses one `get_report_page` call consumes. -/
structure ExportEnv where
  postResp : HttpResp String
  pollResps : List (HttpResp PollBody)
  fileResp : HttpResp Unit
  fileRead : Option (List Nat)
deriving DecidableEq

/-- Poll response that keeps the loop going: a 2xx response whose status is
neither `"Succeeded"` nor `"Failed"`. -/
def pendingOk : HttpResp PollBody → Bool
  | .ok _ b => !(b.status == "Succeeded") && !(b.status == "Failed")
  | .err _ => false

/-- The `while not export_completed` poll loop (lines 156–171 of
`src/reporting/pbi.py`): returns the `asyncio.sleep` durations performed and
the outcome — `some (.ok url)` on `Succeeded`, `some (.error ...)` on
`Failed` or an HTTP error, `none` when every supplied response left the loop
still polling. -/
def pollLoop : List (HttpResp PollBody) → List Nat × Option (Except PBIError String)
  | [] => ([], none)
  | .err c :: _ => ([], some (.error (.httpError c)))
  | .ok _ b :: rest =>
    if b.status == "Succeeded" then ([], some (.ok b.resourceLocation))
    else if b.status == "Failed" then
      ([], some (.error (.exportError ("Export failed: " ++ b.errorMessage))))
    else
      let r := pollLoop rest
      (5 :: r.1, r.2)

/-- Submit response taken by the `if response.status == 202` branch. -/
def isAccepted : HttpResp String → Bool
  | .ok status _ => status == 202
  | .err _ => false

/-- Response-processing part of `get_report_page` (lines 149–183 of
`src/reporting/pbi.py`): returns `none` while the poll loop is still running,
otherwise the outcome together with the filesystem events performed.  The
`with open(ppt_file_name, "wb")` block opens (creates) the destination before
`await file_response.read()` completes, so a read failure leaves the created
file behind. -/
def get_report_page (env : ExportEnv) (ppt_file : String) :
    Option (Except PBIError Unit × List FsEvent) :=
  match env.postResp with
  | .err c => some (.error (.httpError c), [])
  | .ok status _ =>
    if status == 202 then
      match (pollLoop env.pollResps).2 with
      | none => none
      | some (.error e) => some (.error e, [])
      | some (.ok _fileUrl) =>
        match env.fileResp with
        | .err c => some (.error (.httpError c), [])
        | .ok _ _ =>
          match env.fileRead with
          | none => some (.error .readFailed, [.created ppt_file])
          | some bytes => some (.ok (), [.created ppt_file, .wrote ppt_file bytes])
    else
      some (.ok (), [])

/-! ## Presentation Merger — `src/reporting/ppt.py`, `copy_slide`

Shapes are modelled by what `copy_slide` inspects: a picture shape carries
its image bytes (`shape.image.blob`) and its `left`/`top`/`width`/`height`;
any other shape is an opaque XML element that is deep-copied.  The temporary
image files live in an explicit association-list filesystem. -/

/-- Picture shape data used by `copy_slide`. -/
structure PictureData where
  blob : List Nat
  left : Int
  top : Int
  width : Int
  height : Int
deriving DecidableEq

/-- A shape on a slide. -/
inductive PShape where
  | picture (p : PictureData)
  | other (element : Nat)
deriving DecidableEq

/-- Projection to the picture data of a shape. -/
def pictureOf : PShape → Option PictureData
  | .picture p => some p
  | .other _ => none

/-- Temporary file name `f"image_\x7blen(img_dict)\x7d.jpg"`. -/
def imgName (k : Nat) : String :=
  "image_" ++ pyNatStr k ++ ".jpg"

/-- Python `open(name, "wb")` + write on an association-list filesystem:
truncates an existing file or creates a new one. -/
def pyWriteFile (files : List (String × List Nat)) (name : String)
    (content : List Nat) : List (String × List Nat) :=
  if files.any (fun e => e.1 == name) then
    files.map (fun e => if e.1 == name then (name, content) else e)
  else
    files ++ [(name, content)]

/-- Reading a file back (`add_picture` opens the path); `none` when the file
does not exist. -/
def pyReadFile (files : List (String × List Nat)) (name : String) :
    Option (List Nat) :=
  (files.find? (fun e => e.1 == name)).map (fun e => e.2)

/-- State threaded through the first `for shape in slide.shapes` loop of
`copy_slide`: the `img_dict` (file name, insertion-ordered, to position and
size), the temporary files written so far, and the non-picture shapes already
cloned into the new slide. -/
structure CopySlideState where
  imgDict : List (String × Int × Int × Int × Int)
  disk : List (String × List Nat)
  newShapes : List PShape
deriving DecidableEq

/-- First loop of `copy_slide` (lines 253–270 of the merged source /
`src/reporting/ppt.py`): pictures are written to freshly named temporary
files and recorded in `img_dict`; other shapes are deep-copied into the new
slide. -/
def copyShapesLoop : List PShape → CopySlideState → CopySlideState
  | [], st => st
  | .picture p :: rest, st =>
    copyShapesLoop rest
      { imgDict := st.imgDict ++
          [(imgName st.imgDict.length, p.left, p.top, p.width, p.height)],
        disk := pyWriteFile st.disk (imgName st.imgDict.length) p.blob,
        newShapes := st.newShapes }
  | .other e :: rest, st =>
    copyShapesLoop rest { st with newShapes := st.newShapes ++ [.other e] }

/-- Second loop of `copy_slide`: `add_picture(img_path, *position)` for every
`img_dict` entry, reading the bytes back from the temporary file; `none` when
a temporary file is missing. -/
def addPicturesLoop (disk : List (String × List Nat)) :
    List (String × Int × Int × Int × Int) → Option (List PShape)
  | [] => some []
  | (name, l, t, w, h) :: rest =>
    match pyReadFile disk name with
    | none => none
    | some bytes =>
      match addPicturesLoop disk rest with
      | none => none
      | some ps => some (.picture ⟨bytes, l, t, w, h⟩ :: ps)

/-- Result of one `copy_slide` call: the shapes of the new slide, the
temporary files created, and the temporary files removed by the final
`os.remove` loop. -/
structure CopySlideResult where
  newShapes : List PShape
  tempCreated : List String
  tempRemoved : List String
deriving DecidableEq

/-- List paired with indices starting at `k` (used to describe the states the
`copy_slide` loops build). -/
def withIdx {α : Type} : Nat → List α → List (Nat × α)
  | _, [] => []
  | k, a :: as => (k, a) :: withIdx (k + 1) as

/-- The `img_dict` built from the pictures `pics`, their temporary files
numbered from `start`. -/
def dictOf (start : Nat) (pics : List PictureData) :
    List (String × Int × Int × Int × Int) :=
  (withIdx start pics).map
    (fun e => (imgName e.1, e.2.left, e.2.top, e.2.width, e.2.height))

/-- The temporary files written for the pictures `pics`, numbered from
`start`. -/
def diskOf (start : Nat) (pics : List PictureData) : List (String × List Nat) :=
  (withIdx start pics).map (fun e => (imgName e.1, e.2.blob))

/-- The non-picture shapes of a slide, in order. -/
def nonPictures (shapes : List PShape) : List PShape :=
  shapes.filter (fun s => match s with
    | .picture _ => false
    | .other _ => true)

/-- `copy_slide` (lines 236–280 of `src/reporting/ppt.py`): clone non-picture
shapes, write every picture to a temporary file, re-insert each picture from
its file at the recorded position and size, then remove the temporary
files. -/
def copy_slide (slide : List PShape) : Option CopySlideResult :=
  let st := copyShapesLoop slide { imgDict := [], disk := [], newShapes := [] }
  match addPicturesLoop st.disk st.imgDict with
  | none => none
  | some pics =>
    some { newShapes := st.newShapes ++ pics,
           tempCreated := st.disk.map (fun e => e.1),
           tempRemoved := st.imgDict.map (fun e => e.1) }

/-! ## Run pipeline — `src/reporting/main.py`

The slice of `main.py` the claims are about: the report configuration is
loaded (and validated) first; only when that succeeds does `get_all_pages`
run and build one export request per page, chunk by chunk. -/

/-- Boolean success of an `Except`. -/
def isOkE {ε α : Type} : Except ε α → Bool
  | .ok _ => true
  | .error _ => false

/-- Five consecutive page configurations, used to state the spec's example
scenarios on concrete inputs. -/
def samplePages : List ReportPageConfig :=
  [{ pageName := "p1", displayName := "d1", pageOrder := 1,
     measureId := none, comparativeMeasureId := none },
   { pageName := "p2", displayName := "d2", pageOrder := 2,
     measureId := none, comparativeMeasureId := none },
   { pageName := "p3", displayName := "d3", pageOrder := 3,
     measureId := none, comparativeMeasureId := none },
   { pageName := "p4", displayName := "d4", pageOrder := 4,
     measureId := none, comparativeMeasureId := none },
   { pageName := "p5", displayName := "d5", pageOrder := 5,
     measureId := none, comparativeMeasureId := none }]

/-- Configuration loading followed by the chunked export of every page: the
export requests that one run issues, or the error that aborted it. -/
def runExports (queryResult : List ConfigRow) (chunk_size : Int) :
    Except String (List ExportRequest) :=
  match load_report_config queryResult with
  | .error e => .error e
  | .ok cfgs =>
    match get_all_pages_chunks cfgs chunk_size with
    | .error e => .error e
    | .ok chunks => .ok (chunks.flatten.map buildExportRequest)

/-! ## Helper lemmas on the Python string primitives -/

lemma pyDigitsAux_irrel : ∀ f g n : Nat, n < f → n < g → pyDigitsAux f n = pyDigitsAux g n := by
  intro f
  induction f with
  | zero => intro g n hf; omega
  | succ f ih =>
    intro g n hf hg
    cases g with
    | zero => omega
    | succ g =>
      simp only [pyDigitsAux]
      by_cases h10 : n < 10
      · simp [h10]
      · have hlt : n / 10 < n := Nat.div_lt_self (by omega) (by omega)
        simp only [if_neg h10]
        rw [ih g (n / 10) (by omega) (by omega)]

lemma pyDigits_def (n : Nat) :
    pyDigits n =
      if n < 10 then [Nat.digitChar n]
      else pyDigits (n / 10) ++ [Nat.digitChar (n % 10)] := by
  by_cases h10 : n < 10
  · simp [pyDigits, pyDigitsAux, h10]
  · have hlt : n / 10 < n := Nat.div_lt_self (by omega) (by omega)
    have h1 : pyDigits n = pyDigitsAux n (n / 10) ++ [Nat.digitChar (n % 10)] := by
      simp only [pyDigits, pyDigitsAux, if_neg h10]
    rw [if_neg h10, h1,
      pyDigitsAux_irrel n (n / 10 + 1) (n / 10) (by omega) (by omega)]
    rfl

lemma digitChar_sub48 : ∀ d : Nat, d < 10 → (Nat.digitChar d).toNat - 48 = d := by decide

lemma parseDigits_append (l : List Char) (c : Char) :
    parseDigits (l ++ [c]) = parseDigits l * 10 + (c.toNat - 48) := by
  simp [parseDigits, List.foldl_append]

lemma parseDigits_pyDigits : ∀ n : Nat, parseDigits (pyDigits n) = n := by
  intro n
  induction n using Nat.strong_induction_on with
  | _ n ih =>
    rw [pyDigits_def]
    by_cases h10 : n < 10
    · simp [parseDigits, if_pos h10, digitChar_sub48 n h10]
    · have hlt : n / 10 < n := Nat.div_lt_self (by omega) (by omega)
      rw [if_neg h10, parseDigits_append, ih (n / 10) hlt,
        digitChar_sub48 (n % 10) (Nat.mod_lt _ (by omega))]
      omega

lemma pyDigits_injective {a b : Nat} (h : pyDigits a = pyDigits b) : a = b := by
  have := congrArg parseDigits h
  rwa [parseDigits_pyDigits, parseDigits_pyDigits] at this

lemma pyNatStr_injective {a b : Nat} (h : pyNatStr a = pyNatStr b) : a = b := by
  apply pyDigits_injective
  have hd := congrArg String.data h
  simpa [pyNatStr] using hd

lemma imgName_injective {a b : Nat} (h : imgName a = imgName b) : a = b := by
  apply pyDigits_injective
  have hd := congrArg String.data h
  simp only [imgName, String.data_append, pyNatStr] at hd
  rw [List.append_assoc, List.append_assoc] at hd
  exact List.append_cancel_right (List.append_cancel_left hd)

/-! ## Config Loader lemmas -/

lemma validate_config_error_of_mem :
    ∀ (rows : List ConfigRow) (r : ConfigRow), r ∈ rows →
      isOkE (validate_measure r.measureId) = false →
      ∃ e, validate_config rows = .error e := by
  intro rows
  induction rows with
  | nil => intro r hr; exact absurd hr (List.not_mem_nil r)
  | cons a rs ih =>
    intro r hr hbad
    rcases List.mem_cons.mp hr with h | h
    · subst h
      cases hv : validate_measure r.measureId with
      | error e =>
        refine ⟨e, ?_⟩
        simp [validate_config, mkReportPageConfig, hv]
      | ok m => rw [hv] at hbad; simp [isOkE] at hbad
    · obtain ⟨e, he⟩ := ih r h hbad
      cases hm : mkReportPageConfig a with
      | error e2 => exact ⟨e2, by simp [validate_config, hm]⟩
      | ok c => exact ⟨e, by simp [validate_config, hm, he]⟩

/-! ## Claim theorems -/

/-- C1 (code bug): `merge_presentations` does not save at its caller-specified
`output_filename`: `main.py` asks for `all_report.pptx`, the merge saves to
`all_report.ppt`, and `send_email` is then handed the attachment path
`all_report.pptx`, which names no file the run produced. -/
theorem c1_output_path_bug :
    output_ppt_path (mainMergeOutputArg "all") = "all_report.ppt" ∧
    mainAttachmentPath "all" = "all_report.pptx" ∧
    output_ppt_path (mainMergeOutputArg "all") ≠ mainAttachmentPath "all" := by
  decide

/-- C2 (counterexample): the measureIds `"BR123\n"` and `"BR١٢٣"` (`BR`
followed by the Arabic-Indic digits one, two, three) are non-empty and are
not `BR` followed by exactly three digits `0`–`9`, yet `validate_measure`
accepts both — Python's `$` also matches just before a trailing newline, and
Python's `\d` matches every Unicode decimal digit. -/
theorem c2_counterexample :
    (isOkE (validate_measure (some "BR123\n")) = true ∧
      specMeasureIdFormat "BR123\n" = false ∧
      ("BR123\n" : String) ≠ "") ∧
    (isOkE (validate_measure (some "BR١٢٣")) = true ∧
      specMeasureIdFormat "BR١٢٣" = false ∧
      ("BR١٢٣" : String) ≠ "") := by
  decide

/-- C2 (amended): `validate_measure` succeeds exactly when `measureId` is
absent, empty, or matches Python `re.match(r"^BR\d\x7b3\x7d$", ·)` — `BR`
plus three digits with an optional single trailing newline; every other
non-empty `measureId` aborts configuration loading, so the run issues no
export request. -/
theorem c2_measure_validation :
    (∀ v : Option String,
      isOkE (validate_measure v) = true ↔
        (v = none ∨ v = some "" ∨ ∃ s, v = some s ∧ brMatch s = true)) ∧
    (∀ (queryResult : List ConfigRow) (r : ConfigRow), r ∈ queryResult →
      isOkE (validate_measure r.measureId) = false →
      ∃ e, load_report_config queryResult = .error e ∧
        ∀ chunk_size : Int, runExports queryResult chunk_size = .error e) := by
  constructor
  · intro v
    cases v with
    | none => simp [validate_measure, isOkE]
    | some s =>
      by_cases hs : s = ""
      · subst hs
        have hok : isOkE (validate_measure (some "")) = true := by decide
        exact ⟨fun _ => Or.inr (Or.inl rfl), fun _ => hok⟩
      · by_cases hb : brMatch s
        · have hok : isOkE (validate_measure (some s)) = true := by
            simp [validate_measure, hs, hb, isOkE]
          exact ⟨fun _ => Or.inr (Or.inr ⟨s, rfl, hb⟩), fun _ => hok⟩
        · have hnok : isOkE (validate_measure (some s)) = false := by
            simp [validate_measure, hs, hb, isOkE]
          rw [hnok]
          constructor
          · intro hcon; exact absurd hcon (by decide)
          · rintro (h | h | ⟨s2, hs2, hb2⟩)
            · cases h
            · exact absurd (by injection h) hs
            · injection hs2 with hs2
              subst hs2
              exact absurd hb2 hb
  · intro queryResult r hr hbad
    obtain ⟨e, he⟩ := validate_config_error_of_mem queryResult r hr hbad
    have hne : queryResult ≠ [] := by
      intro hcon; subst hcon; exact absurd hr (List.not_mem_nil r)
    refine ⟨e, ?_, ?_⟩
    · simp [load_report_config, get_page_config, if_neg hne, he]
    · intro chunk_size
      simp [runExports, load_report_config, get_page_config, if_neg hne, he]

/-- C2 (witness): a config row with measureId `"XX"` makes
`load_report_config` fail and the run issue no export request. -/
theorem c2_measure_validation_witness :
    ∃ e, load_report_config
        [{ pageName := "p", displayName := "d", pageOrder := 1,
           measureId := some "XX", comparativeMeasureId := none }] = .error e ∧
      ∀ chunk_size : Int,
        runExports
          [{ pageName := "p", displayName := "d", pageOrder := 1,
             measureId := some "XX", comparativeMeasureId := none }] chunk_size =
          .error e :=
  c2_measure_validation.2 _ _ (List.mem_singleton.mpr rfl) (by decide)

/-- C6: a truthy `measureId` always produces the report-level filter list
containing exactly the measureId equality-in-list expression, and the request
is the same whatever `comparativeMeasureId` holds; a falsy `measureId`
produces a request with no report-level filter. -/
theorem c6_filter_measure_only :
    ∀ cfg : ReportPageConfig,
      (∀ s, cfg.measureId = some s → s ≠ "" →
        (buildExportRequest cfg).reportLevelFilters = some [filterString s] ∧
        ∀ comp, buildExportRequest { cfg with comparativeMeasureId := comp } =
          buildExportRequest cfg) ∧
      ((cfg.measureId = none ∨ cfg.measureId = some "") →
        (buildExportRequest cfg).reportLevelFilters = none) := by
  intro cfg
  constructor
  · intro s hs hne
    have hts : pyTruthy (some s) = true := by
      simpa [pyTruthy, bne_iff_ne] using hne
    have htr : pyTruthy cfg.measureId = true := by rw [hs]; exact hts
    constructor
    · simp [buildExportRequest, hs, hts, htr, ite_self]
    · intro comp
      simp [buildExportRequest, htr, ite_self]
  · rintro (h | h)
    · have hf : pyTruthy cfg.measureId = false := by rw [h]; rfl
      simp [buildExportRequest, hf]
    · have hf : pyTruthy cfg.measureId = false := by rw [h]; rfl
      simp [buildExportRequest, hf]

/-- C6 (witness): the spec's example page with measureId `BR007` gets the
filter `scd_Measure/Measure_ID in ('BR007')`. -/
theorem c6_filter_measure_only_witness :
    (buildExportRequest
        { pageName := "ReportSection1", displayName := "Overview", pageOrder := 1,
          measureId := some "BR007", comparativeMeasureId := none }).reportLevelFilters =
      some [filterString "BR007"] :=
  ((c6_filter_measure_only _).1 "BR007" rfl (by decide)).1

/-! ## Chunking lemmas -/

lemma pyRangeStep_succ (L step : Nat) :
    pyRangeStep (L + 1) step =
      pyRangeStep L step ++ (if L % step == 0 then [L] else []) := by
  by_cases h : L % step = 0 <;>
    simp [pyRangeStep, List.range_succ, List.filter_append, h]

lemma pyRangeStep_eq {step : Nat} (hs : 0 < step) :
    ∀ L, pyRangeStep L step = (List.range ((L + step - 1) / step)).map (· * step) := by
  intro L
  induction L with
  | zero =>
    have h0 : (step - 1) / step = 0 := Nat.div_eq_of_lt (by omega)
    simp [pyRangeStep, h0]
  | succ L ih =>
    rw [pyRangeStep_succ, ih]
    by_cases hd : step ∣ L
    · obtain ⟨k, rfl⟩ := hd
      have hmod : (step * k % step == 0) = true := by simp [Nat.mul_mod_right]
      have hc1 : (step * k + step - 1) / step = k := by
        rw [Nat.add_sub_assoc (by omega) (step * k), Nat.mul_add_div hs,
          Nat.div_eq_of_lt (by omega)]
        omega
      have hc2 : (step * k + 1 + step - 1) / step = k + 1 := by
        have h2 : step * k + 1 + step - 1 = step * (k + 1) := by
          rw [Nat.mul_succ]; omega
        rw [h2, Nat.mul_div_cancel_left _ hs]
      rw [hc1, hc2, hmod, List.range_succ, List.map_append]
      simp [Nat.mul_comm]
    · have hmod' : L % step ≠ 0 := fun h => hd (Nat.dvd_of_mod_eq_zero h)
      have hmod : (L % step == 0) = false := by simpa using hmod'
      have hL0 : L ≠ 0 := by
        rintro rfl; exact hd ⟨0, rfl⟩
      have hcnt : (L + 1 + step - 1) / step = (L + step - 1) / step := by
        have e1 : L + 1 + step - 1 = L + step := by omega
        have e2 : L + step - 1 = L - 1 + step := by omega
        rw [e1, e2, Nat.add_div_right _ hs, Nat.add_div_right _ hs]
        have e3 : L - 1 + 1 = L := by omega
        conv_lhs => rw [← e3]
        rw [Nat.succ_div, if_neg (by rw [e3]; exact hd)]
      rw [hcnt, hmod]
      simp

lemma ceil_chunk_succ {L c : Nat} (hc : 0 < c) (hL : 0 < L) :
    (L + c - 1) / c = (L - c + c - 1) / c + 1 := by
  by_cases hcase : L ≤ c
  · have h2 : L - c = 0 := by omega
    have hL1 : (L + c - 1) / c = 1 := Nat.div_eq_of_lt_le (by omega) (by omega)
    have hR : (0 + c - 1) / c = 0 := Nat.div_eq_of_lt (by omega)
    rw [h2, hL1, hR]
  · have h3 : L + c - 1 = (L - c + c - 1) + c := by omega
    rw [h3, Nat.add_div_right _ hc]

lemma chunks_flatten {α : Type} (c : Nat) (hc : 0 < c) :
    ∀ (N : Nat) (l : List α), l.length ≤ N →
      ((List.range ((l.length + c - 1) / c)).map
        (fun j => (l.drop (j * c)).take c)).flatten = l := by
  intro N
  induction N with
  | zero =>
    intro l hl
    have hnil : l = [] := List.eq_nil_of_length_eq_zero (by omega)
    subst hnil
    simp [Nat.div_eq_of_lt (by omega : 0 + c - 1 < c)]
  | succ N ih =>
    intro l hl
    cases l with
    | nil => simp [Nat.div_eq_of_lt (by omega : 0 + c - 1 < c)]
    | cons a l0 =>
      have hL : 0 < (a :: l0).length := by simp
      have hdl : ((a :: l0).drop c).length = (a :: l0).length - c := by
        simp [List.length_drop]
      rw [ceil_chunk_succ hc hL, List.range_succ_eq_map, List.map_cons,
        List.map_map, List.flatten_cons]
      have hmapeq :
          List.map ((fun j => ((a :: l0).drop (j * c)).take c) ∘ Nat.succ)
              (List.range (((a :: l0).length - c + c - 1) / c)) =
            List.map (fun j => ((((a :: l0).drop c).drop (j * c)).take c))
              (List.range (((a :: l0).length - c + c - 1) / c)) := by
        apply List.map_congr_left
        intro j _
        simp only [Function.comp]
        simp [Nat.succ_mul, List.drop_drop, Nat.add_comm]
      rw [hmapeq]
      have hihlen : ((a :: l0).drop c).length ≤ N := by
        rw [hdl]
        simp only [List.length_cons] at hl ⊢
        omega
      have hih := ih ((a :: l0).drop c) hihlen
      rw [hdl] at hih
      rw [hih]
      simp [List.take_append_drop]

lemma ceil_min_eq {L CN : Nat} (hL : 0 < L) (_hCN : 0 < CN) :
    (L + min L CN - 1) / min L CN = (L + CN - 1) / CN := by
  rcases Nat.le_total CN L with h | h
  · rw [Nat.min_eq_right h]
  · have hmin : min L CN = L := Nat.min_eq_left h
    rw [hmin]
    have h1 : (L + L - 1) / L = 1 := Nat.div_eq_of_lt_le (by omega) (by omega)
    have h2 : (L + CN - 1) / CN = 1 := Nat.div_eq_of_lt_le (by omega) (by omega)
    rw [h1, h2]

/-- C3 (counterexample): for the empty page list the orchestrator does not
issue `ceil(0/C) = 0` chunks — the zero effective chunk size makes `range`
raise `ValueError` instead. -/
theorem c3_counterexample :
    get_all_pages_chunks [] 2 = .error "range() arg 3 must not be zero" ∧
    (0 + 2 - 1) / 2 = 0 := by
  constructor
  · rfl
  · rfl

/-- C3 (amended): for every nonempty page list of length `L` and positive
chunk size `C`, the orchestrator issues `ceil(L/C)` consecutive chunks
determined only by position — chunk `j` is `drop (j*c) >> take c` of the page
list for the effective size `c = min L C`; concatenating the chunks in order
gives back the page list. -/
theorem c3_chunking :
    ∀ (report_config : List ReportPageConfig) (chunk_size : Int),
      0 < chunk_size → 0 < report_config.length →
      ∃ chunks,
        get_all_pages_chunks report_config chunk_size = .ok chunks ∧
        chunks.length =
          (report_config.length + chunk_size.toNat - 1) / chunk_size.toNat ∧
        chunks.flatten = report_config ∧
        (∀ j : Nat, j < chunks.length →
          chunks[j]? =
            some ((report_config.drop
                (j * min report_config.length chunk_size.toNat)).take
              (min report_config.length chunk_size.toNat))) := by
  intro cfg C hC hL
  have hCN0 : 0 < C.toNat := by omega
  have hc : 0 < min cfg.length C.toNat := by omega
  have heff : min ((cfg.length : Nat) : Int) C =
      ((min cfg.length C.toNat : Nat) : Int) := by omega
  have htn : (((min cfg.length C.toNat : Nat) : Int)).toNat =
      min cfg.length C.toNat := by omega
  refine ⟨(pyRangeStep cfg.length (min cfg.length C.toNat)).map
      (fun i => (cfg.drop i).take (min cfg.length C.toNat)), ?_, ?_, ?_, ?_⟩
  · simp only [get_all_pages_chunks, heff, htn]
    rw [if_neg (by omega), if_neg (by omega)]
  · rw [pyRangeStep_eq hc]
    simp only [List.map_map, List.length_map, List.length_range]
    exact ceil_min_eq hL hCN0
  · rw [pyRangeStep_eq hc, List.map_map]
    exact chunks_flatten _ hc cfg.length cfg le_rfl
  · intro j hj
    rw [pyRangeStep_eq hc, List.map_map] at hj ⊢
    simp only [List.length_map, List.length_range] at hj
    rw [List.getElem?_map, List.getElem?_range hj]
    rfl

/-- C3 (witness): five pages with chunk size 2 give `ceil(5/2) = 3` chunks,
positional and concatenating back to the page list — the spec's `[2, 2, 1]`
example. -/
theorem c3_chunking_witness :
    ∃ chunks,
      get_all_pages_chunks samplePages 2 = .ok chunks ∧
      chunks.length =
        (samplePages.length + (2 : Int).toNat - 1) / (2 : Int).toNat ∧
      chunks.flatten = samplePages ∧
      (∀ j : Nat, j < chunks.length →
        chunks[j]? =
          some ((samplePages.drop
              (j * min samplePages.length (2 : Int).toNat)).take
            (min samplePages.length (2 : Int).toNat))) :=
  c3_chunking samplePages 2 (by decide) (by decide)

/-- C10: for the empty page list and a nonnegative configured chunk size, the
effective chunk size `min(0, chunk_size)` is zero and `get_all_pages` raises
`ValueError("range() arg 3 must not be zero")` before issuing any chunk. -/
theorem c10_empty_pages_error :
    ∀ chunk_size : Int, 0 ≤ chunk_size →
      get_all_pages_chunks [] chunk_size =
        .error "range() arg 3 must not be zero" := by
  intro C hC
  have h0 : min (((List.length ([] : List ReportPageConfig)) : Nat) : Int) C = 0 := by
    simp only [List.length_nil, Nat.cast_zero]
    omega
  simp only [get_all_pages_chunks, h0]
  rfl

/-- C10 (witness): the default chunk size 5 with no pages raises the
`range()` error. -/
theorem c10_empty_pages_error_witness :
    get_all_pages_chunks [] 5 = .error "range() arg 3 must not be zero" :=
  c10_empty_pages_error 5 (by decide)

/-! ## Poll-loop lemmas -/

lemma pollLoop_sleeps :
    ∀ ps : List (HttpResp PollBody),
      (pollLoop ps).1 = List.replicate (ps.takeWhile pendingOk).length 5 := by
  intro ps
  induction ps with
  | nil => rfl
  | cons r rest ih =>
    cases r with
    | err c => simp [pollLoop, List.takeWhile_cons, pendingOk]
    | ok st b =>
      by_cases hS : b.status = "Succeeded"
      · simp [pollLoop, hS, List.takeWhile_cons, pendingOk]
      · by_cases hF : b.status = "Failed"
        · simp [pollLoop, hS, hF, List.takeWhile_cons, pendingOk]
        · simp [pollLoop, hS, hF, List.takeWhile_cons, pendingOk, ih,
            List.replicate_succ]

lemma pollLoop_none_iff :
    ∀ ps : List (HttpResp PollBody),
      (pollLoop ps).2 = none ↔ ∀ r ∈ ps, pendingOk r = true := by
  intro ps
  induction ps with
  | nil => simp [pollLoop]
  | cons r rest ih =>
    cases r with
    | err c => simp [pollLoop, pendingOk]
    | ok st b =>
      by_cases hS : b.status = "Succeeded"
      · simp [pollLoop, hS, pendingOk]
      · by_cases hF : b.status = "Failed"
        · simp [pollLoop, hS, hF, pendingOk]
        · simp [pollLoop, hS, hF, pendingOk, ih]

lemma pollLoop_exportError_iff :
    ∀ (ps : List (HttpResp PollBody)) (m : String),
      (pollLoop ps).2 = some (.error (.exportError m)) ↔
        ∃ (k : Nat) (st : Nat) (b : PollBody),
          ps[k]? = some (.ok st b) ∧ b.status = "Failed" ∧
          m = "Export failed: " ++ b.errorMessage ∧
          ∀ j, j < k → ∃ r, ps[j]? = some r ∧ pendingOk r = true := by
  intro ps
  induction ps with
  | nil =>
    intro m
    constructor
    · intro h; simp [pollLoop] at h
    · rintro ⟨k, st, b, hk, -⟩
      simp at hk
  | cons r rest ih =>
    intro m
    cases r with
    | err c =>
      constructor
      · intro h; simp [pollLoop] at h
      · rintro ⟨k, st, b, hk, hF2, hm, hpre⟩
        cases k with
        | zero => simp at hk
        | succ k2 =>
          obtain ⟨r0, hr0, hp0⟩ := hpre 0 (Nat.succ_pos k2)
          simp at hr0
          subst hr0
          simp [pendingOk] at hp0
    | ok st b =>
      by_cases hS : b.status = "Succeeded"
      · constructor
        · intro h; simp [pollLoop, hS] at h
        · rintro ⟨k, st2, b2, hk, hF2, hm, hpre⟩
          cases k with
          | zero =>
            simp at hk
            obtain ⟨hst, hb⟩ := hk
            subst hb
            rw [hS] at hF2
            exact absurd hF2 (by decide)
          | succ k2 =>
            obtain ⟨r0, hr0, hp0⟩ := hpre 0 (Nat.succ_pos k2)
            simp at hr0
            subst hr0
            simp [pendingOk, hS] at hp0
      · by_cases hF : b.status = "Failed"
        · constructor
          · intro h
            have hm : m = "Export failed: " ++ b.errorMessage := by
              simp [pollLoop, hS, hF] at h
              exact h.symm
            exact ⟨0, st, b, by simp, hF, hm,
              fun j hj => absurd hj (Nat.not_lt_zero j)⟩
          · rintro ⟨k, st2, b2, hk, hF2, hm, hpre⟩
            cases k with
            | zero =>
              simp at hk
              obtain ⟨hst, hb⟩ := hk
              subst hb
              subst hm
              simp [pollLoop, hS, hF]
            | succ k2 =>
              obtain ⟨r0, hr0, hp0⟩ := hpre 0 (Nat.succ_pos k2)
              simp at hr0
              subst hr0
              simp [pendingOk, hF] at hp0
        · have hstep : (pollLoop (.ok st b :: rest)).2 = (pollLoop rest).2 := by
            simp [pollLoop, hS, hF]
          rw [hstep, ih m]
          constructor
          · rintro ⟨k, st2, b2, hk, hF2, hm, hpre⟩
            refine ⟨k + 1, st2, b2, ?_, hF2, hm, ?_⟩
            · simpa using hk
            · intro j hj
              cases j with
              | zero =>
                exact ⟨.ok st b, by simp, by simp [pendingOk, hS, hF]⟩
              | succ j2 =>
                obtain ⟨r2, hr2, hp2⟩ := hpre j2 (by omega)
                exact ⟨r2, by simpa using hr2, hp2⟩
          · rintro ⟨k, st2, b2, hk, hF2, hm, hpre⟩
            cases k with
            | zero =>
              simp at hk
              obtain ⟨hst, hb⟩ := hk
              subst hb
              exact absurd hF2 hF
            | succ k2 =>
              refine ⟨k2, st2, b2, ?_, hF2, hm, ?_⟩
              · simpa using hk
              · intro j hj
                obtain ⟨r2, hr2, hp2⟩ := hpre (j + 1) (by omega)
                exact ⟨r2, by simpa using hr2, hp2⟩

/-- C7: the poll loop raises the export error carrying the vendor's failure
message exactly when the first deciding poll response reports status
`Failed`, with the preceding polls all pending; every non-terminal poll
response costs one fixed 5-second sleep; and the loop is still running after
consuming its responses exactly when every one of them was a pending 2xx
response. -/
theorem c7_poll_loop :
    ∀ ps : List (HttpResp PollBody),
      (pollLoop ps).1 = List.replicate (ps.takeWhile pendingOk).length 5 ∧
      ((pollLoop ps).2 = none ↔ ∀ r ∈ ps, pendingOk r = true) ∧
      ∀ m : String,
        (pollLoop ps).2 = some (.error (.exportError m)) ↔
          ∃ (k : Nat) (st : Nat) (b : PollBody),
            ps[k]? = some (.ok st b) ∧ b.status = "Failed" ∧
            m = "Export failed: " ++ b.errorMessage ∧
            ∀ j, j < k → ∃ r, ps[j]? = some r ∧ pendingOk r = true :=
  fun ps => ⟨pollLoop_sleeps ps, pollLoop_none_iff ps, pollLoop_exportError_iff ps⟩

/-- C7 (witness): one pending poll then a `Failed` poll yields one 5-second
sleep and the export error carrying the vendor's message. -/
theorem c7_poll_loop_witness :
    (pollLoop [.ok 200 ⟨"Running", "", ""⟩, .ok 200 ⟨"Failed", "", "boom"⟩]).1 =
      List.replicate
        (([.ok 200 ⟨"Running", "", ""⟩,
           .ok 200 ⟨"Failed", "", "boom"⟩].takeWhile pendingOk)).length 5 ∧
    ∃ (k : Nat) (st : Nat) (b : PollBody),
      ([.ok 200 ⟨"Running", "", ""⟩,
        .ok 200 ⟨"Failed", "", "boom"⟩] : List (HttpResp PollBody))[k]? =
          some (.ok st b) ∧
        b.status = "Failed" ∧
        ("Export failed: boom" : String) = "Export failed: " ++ b.errorMessage ∧
        ∀ j, j < k →
          ∃ r, ([.ok 200 ⟨"Running", "", ""⟩,
            .ok 200 ⟨"Failed", "", "boom"⟩] : List (HttpResp PollBody))[j]? = some r ∧
            pendingOk r = true :=
  ⟨(c7_poll_loop _).1,
   ((c7_poll_loop _).2.2 "Export failed: boom").mp rfl⟩

/-! ## Filename-order lemmas -/

lemma pyLexLt_append_left :
    ∀ (p xs ys : List Char), pyLexLt (p ++ xs) (p ++ ys) = pyLexLt xs ys := by
  intro p
  induction p with
  | nil => intro xs ys; rfl
  | cons c cs ih => intro xs ys; simp [pyLexLt, ih]

lemma pyLexLt_irrefl : ∀ l : List Char, pyLexLt l l = false := by
  intro l
  induction l with
  | nil => rfl
  | cons c cs ih => simp [pyLexLt, ih]

lemma pyLexLt_two_digits (x y x2 y2 : Char) (s : List Char) :
    pyLexLt (x :: y :: s) (x2 :: y2 :: s) = true ↔
      (x.toNat < x2.toNat ∨ (x.toNat = x2.toNat ∧ y.toNat < y2.toNat)) := by
  by_cases h1 : x.toNat < x2.toNat
  · simp [pyLexLt, h1]
  · by_cases h2 : x2.toNat < x.toNat
    · simp [pyLexLt, h1, h2]
      omega
    · by_cases h3 : y.toNat < y2.toNat
      · simp [pyLexLt, h1, h2, h3]
        omega
      · by_cases h4 : y2.toNat < y.toNat
        · simp [pyLexLt, h1, h2, h3, h4]
        · simp [pyLexLt, h1, h2, h3, h4, pyLexLt_irrefl]

lemma digitChar_toNat_lt_iff :
    ∀ x : Nat, x < 10 → ∀ y : Nat, y < 10 →
      ((Nat.digitChar x).toNat < (Nat.digitChar y).toNat ↔ x < y) := by
  decide

lemma digitChar_toNat_eq_iff :
    ∀ x : Nat, x < 10 → ∀ y : Nat, y < 10 →
      ((Nat.digitChar x).toNat = (Nat.digitChar y).toNat ↔ x = y) := by
  decide

lemma zfill_two_digits :
    ∀ n : Nat, n < 100 →
      (zfill 2 (pyNatStr n)).data =
        [Nat.digitChar (n / 10), Nat.digitChar (n % 10)] := by
  decide

/-- C4 (counterexample): with `zfill(2)` the filename of page order 100 sorts
lexicographically before the filename of page order 11 although 11 < 100 —
lexicographic order of the generated filenames is not numeric order of the
page orders. -/
theorem c4_counterexample :
    pyStrLt (pageBaseName 100) (pageBaseName 11) = true ∧
    pyStrLt (pageBaseName 11) (pageBaseName 100) = false ∧
    (11 : Nat) < 100 := by
  decide

/-- C4 (amended): for page orders up to 99 — where `zfill(2)` yields exactly
two digits — lexicographic order of the generated filenames
`Page <zero-padded order>.pptx` coincides with numeric order of the page
orders, so the sorted directory listing lists the per-page files in
page-number order. -/
theorem c4_filename_order :
    (∀ a : Nat, a < 100 → ∀ b : Nat, b < 100 →
      (pyStrLt (pageBaseName a) (pageBaseName b) = true ↔ a < b)) ∧
    (∀ N : Nat, N ≤ 99 →
      List.Pairwise (fun s t => pyStrLt s t = true)
        ((List.range N).map (fun k => pageBaseName (k + 1)))) := by
  have hmain : ∀ a : Nat, a < 100 → ∀ b : Nat, b < 100 →
      (pyStrLt (pageBaseName a) (pageBaseName b) = true ↔ a < b) := by
    intro a ha b hb
    have hrepr : ∀ n : Nat,
        (pageBaseName n).data =
          "Page ".data ++ ((zfill 2 (pyNatStr n)).data ++ ".pptx".data) := by
      intro n
      simp [pageBaseName, String.data_append, List.append_assoc]
    unfold pyStrLt
    rw [hrepr a, hrepr b, zfill_two_digits a ha, zfill_two_digits b hb,
      pyLexLt_append_left]
    have hcons : ∀ n : Nat,
        ([Nat.digitChar (n / 10), Nat.digitChar (n % 10)] ++ ".pptx".data) =
          Nat.digitChar (n / 10) :: Nat.digitChar (n % 10) :: ".pptx".data := by
      intro n; rfl
    rw [hcons a, hcons b, pyLexLt_two_digits,
      digitChar_toNat_lt_iff (a / 10) (by omega) (b / 10) (by omega),
      digitChar_toNat_eq_iff (a / 10) (by omega) (b / 10) (by omega),
      digitChar_toNat_lt_iff (a % 10) (by omega) (b % 10) (by omega)]
    omega
  refine ⟨hmain, ?_⟩
  intro N hN
  rw [List.pairwise_map]
  have hbase : List.Pairwise (fun a b => a < b) (List.range N) :=
    List.pairwise_lt_range N
  refine hbase.imp_of_mem ?_
  intro a b ha hb hab
  have ha1 : a + 1 < 100 := by
    have := List.mem_range.mp ha; omega
  have hb1 : b + 1 < 100 := by
    have := List.mem_range.mp hb; omega
  exact (hmain (a + 1) ha1 (b + 1) hb1).mpr (by omega)

/-- C4 (witness): page orders 3 and 12 sort in numeric order, and five
one-digit-and-two-digit filenames are pairwise sorted. -/
theorem c4_filename_order_witness :
    (pyStrLt (pageBaseName 3) (pageBaseName 12) = true ↔ (3 : Nat) < 12) ∧
    List.Pairwise (fun s t => pyStrLt s t = true)
      ((List.range 12).map (fun k => pageBaseName (k + 1))) :=
  ⟨c4_filename_order.1 3 (by decide) 12 (by decide),
   c4_filename_order.2 12 (by decide)⟩

/-- C5 (counterexample): a 2xx submit response other than 202 completes the
call without error and without writing any file, and a failure while reading
the download body leaves the destination file created (empty) on a failing
path — both against the claim's "exactly one file on success, destination
untouched on every failure". -/
theorem c5_counterexample :
    get_report_page
        { postResp := .ok 200 "sync", pollResps := [],
          fileResp := .ok 200 (), fileRead := some [] } "f.pptx" =
      some (.ok (), []) ∧
    get_report_page
        { postResp := .ok 202 "exportId",
          pollResps := [.ok 200 ⟨"Succeeded", "url", ""⟩],
          fileResp := .ok 200 (), fileRead := none } "f.pptx" =
      some (.error .readFailed, [.created "f.pptx"]) ∧
    ([FsEvent.created "f.pptx"] : List FsEvent) ≠ [] := by
  refine ⟨rfl, rfl, by decide⟩

/-- C5 (amended): when the call completes without error on the asynchronous
(202) path it writes exactly one file — the destination, created then written
with the downloaded bytes; a 2xx submit response other than 202 completes
without touching any file; every failing path leaves the destination
untouched except a failure while reading the download body, which leaves the
destination created but unwritten. -/
theorem c5_file_writes :
    ∀ (env : ExportEnv) (ppt_file : String) (res : Except PBIError Unit)
      (evs : List FsEvent),
      get_report_page env ppt_file = some (res, evs) →
        (∀ e, res = .error e →
          evs = [] ∨ (e = .readFailed ∧ evs = [.created ppt_file])) ∧
        (res = .ok () →
          (isAccepted env.postResp = true →
            ∃ bytes, evs = [.created ppt_file, .wrote ppt_file bytes]) ∧
          (isAccepted env.postResp = false → evs = [])) := by
  intro env ppt_file res evs h
  obtain ⟨post, polls, fresp, fread⟩ := env
  cases post with
  | err c =>
    simp [get_report_page] at h
    obtain ⟨hres, hevs⟩ := h
    subst hres; subst hevs
    constructor
    · intro e he
      injection he with he
      subst he
      exact Or.inl rfl
    · intro hcon; cases hcon
  | ok status body =>
    by_cases h202 : status = 202
    · subst h202
      cases hpoll : (pollLoop polls).2 with
      | none => simp [get_report_page, hpoll] at h
      | some r =>
        cases r with
        | error e =>
          simp [get_report_page, hpoll] at h
          obtain ⟨hres, hevs⟩ := h
          subst hres; subst hevs
          constructor
          · intro e2 he2
            injection he2 with he2
            subst he2
            exact Or.inl rfl
          · intro hcon; cases hcon
        | ok url =>
          cases fresp with
          | err c2 =>
            simp [get_report_page, hpoll] at h
            obtain ⟨hres, hevs⟩ := h
            subst hres; subst hevs
            constructor
            · intro e2 he2
              injection he2 with he2
              subst he2
              exact Or.inl rfl
            · intro hcon; cases hcon
          | ok st2 u =>
            cases fread with
            | none =>
              simp [get_report_page, hpoll] at h
              obtain ⟨hres, hevs⟩ := h
              subst hres; subst hevs
              constructor
              · intro e2 he2
                injection he2 with he2
                subst he2
                exact Or.inr ⟨rfl, rfl⟩
              · intro hcon; cases hcon
            | some bytes =>
              simp [get_report_page, hpoll] at h
              obtain ⟨hres, hevs⟩ := h
              subst hres; subst hevs
              constructor
              · intro e2 he2; cases he2
              · intro _
                constructor
                · intro _
                  exact ⟨bytes, rfl⟩
                · intro hacc
                  simp [isAccepted] at hacc
    · simp [get_report_page, h202] at h
      obtain ⟨hres, hevs⟩ := h
      subst hres; subst hevs
      constructor
      · intro e2 he2; cases he2
      · intro _
        constructor
        · intro hacc
          simp [isAccepted, h202] at hacc
        · intro _
          rfl

/-- C5 (witness): a successful 202 export with one `Succeeded` poll creates
and writes exactly the destination file. -/
theorem c5_file_writes_witness :
    ∃ bytes,
      ([FsEvent.created "f.pptx", FsEvent.wrote "f.pptx" [7]] : List FsEvent) =
        [FsEvent.created "f.pptx", FsEvent.wrote "f.pptx" bytes] :=
  ((c5_file_writes
      { postResp := .ok 202 "exportId",
        pollResps := [.ok 200 ⟨"Succeeded", "url", ""⟩],
        fileResp := .ok 200 (), fileRead := some [7] }
      "f.pptx" (.ok ()) [.created "f.pptx", .wrote "f.pptx" [7]] rfl).2 rfl).1 rfl

/-! ## Slide-copy lemmas -/

lemma withIdx_length {α : Type} : ∀ (k : Nat) (l : List α),
    (withIdx k l).length = l.length := by
  intro k l
  induction l generalizing k with
  | nil => rfl
  | cons a as ih => simp [withIdx, ih]

lemma withIdx_append {α : Type} :
    ∀ (l1 l2 : List α) (k : Nat),
      withIdx k (l1 ++ l2) = withIdx k l1 ++ withIdx (k + l1.length) l2 := by
  intro l1
  induction l1 with
  | nil => intro l2 k; simp [withIdx]
  | cons a as ih =>
    intro l2 k
    have harith : k + (a :: as).length = k + 1 + as.length := by
      simp only [List.length_cons]; omega
    rw [List.cons_append]
    simp only [withIdx]
    rw [ih, harith]
    simp [List.cons_append]

lemma withIdx_fst_bound {α : Type} :
    ∀ (l : List α) (k : Nat) (e : Nat × α),
      e ∈ withIdx k l → k ≤ e.1 ∧ e.1 < k + l.length := by
  intro l
  induction l with
  | nil => intro k e he; simp [withIdx] at he
  | cons a as ih =>
    intro k e he
    rw [withIdx] at he
    rcases List.mem_cons.mp he with h | h
    · subst h; simp
    · have := ih (k + 1) e h
      simp only [List.length_cons]
      omega

lemma diskOf_fresh :
    ∀ (pics : List PictureData) (n : Nat), pics.length ≤ n →
      (diskOf 0 pics).any (fun e => e.1 == imgName n) = false := by
  intro pics n hn
  rw [List.any_eq_false]
  intro x hx
  simp only [diskOf, List.mem_map] at hx
  obtain ⟨e, he, rfl⟩ := hx
  have hb := withIdx_fst_bound pics 0 e he
  intro hcon
  have : e.1 = n := imgName_injective (by simpa using hcon)
  omega

lemma copyShapesLoop_spec :
    ∀ (shapes : List PShape) (pics0 : List PictureData) (ns0 : List PShape),
      copyShapesLoop shapes
          { imgDict := dictOf 0 pics0, disk := diskOf 0 pics0,
            newShapes := ns0 } =
        { imgDict := dictOf 0 (pics0 ++ shapes.filterMap pictureOf),
          disk := diskOf 0 (pics0 ++ shapes.filterMap pictureOf),
          newShapes := ns0 ++ nonPictures shapes } := by
  intro shapes
  induction shapes with
  | nil =>
    intro pics0 ns0
    simp [copyShapesLoop, nonPictures]
  | cons s rest ih =>
    intro pics0 ns0
    cases s with
    | picture p =>
      have hlen : (dictOf 0 pics0).length = pics0.length := by
        simp [dictOf, withIdx_length]
      have hdict :
          dictOf 0 pics0 ++
              [(imgName pics0.length, p.left, p.top, p.width, p.height)] =
            dictOf 0 (pics0 ++ [p]) := by
        simp [dictOf, withIdx_append, withIdx, withIdx_length]
      have hdisk :
          pyWriteFile (diskOf 0 pics0) (imgName pics0.length) p.blob =
            diskOf 0 (pics0 ++ [p]) := by
        have hfresh := diskOf_fresh pics0 pics0.length le_rfl
        unfold pyWriteFile
        rw [hfresh]
        simp [diskOf, withIdx_append, withIdx, withIdx_length]
      simp only [copyShapesLoop, hlen]
      rw [hdict, hdisk, ih (pics0 ++ [p]) ns0]
      simp [List.filterMap_cons, pictureOf, nonPictures, List.filter_cons,
        List.append_assoc]
    | other e =>
      simp only [copyShapesLoop]
      rw [ih pics0 (ns0 ++ [PShape.other e])]
      simp [List.filterMap_cons, pictureOf, nonPictures, List.filter_cons,
        List.append_assoc]

lemma pyReadFile_diskOf :
    ∀ (pics : List PictureData) (start : Nat) (e : Nat × PictureData),
      e ∈ withIdx start pics →
      pyReadFile (diskOf start pics) (imgName e.1) = some e.2.blob := by
  intro pics
  induction pics with
  | nil => intro start e he; simp [withIdx] at he
  | cons p rest ih =>
    intro start e he
    rw [withIdx] at he
    rcases List.mem_cons.mp he with h | h
    · subst h
      simp [diskOf, withIdx, pyReadFile]
    · have hb := withIdx_fst_bound rest (start + 1) e h
      have hne : ((imgName start, p.blob).1 == imgName e.1) = false := by
        refine beq_eq_false_iff_ne.mpr ?_
        intro hcon
        have := imgName_injective hcon
        omega
      have hstep :
          pyReadFile (diskOf start (p :: rest)) (imgName e.1) =
            pyReadFile (diskOf (start + 1) rest) (imgName e.1) := by
        simp only [diskOf, withIdx, List.map_cons, pyReadFile]
        rw [List.find?_cons_of_neg _ (by simp only [hne]; exact Bool.false_ne_true)]
      rw [hstep]
      exact ih (start + 1) e h

lemma addPicturesLoop_of_reads :
    ∀ (pics : List PictureData) (start : Nat) (disk : List (String × List Nat)),
      (∀ e ∈ withIdx start pics, pyReadFile disk (imgName e.1) = some e.2.blob) →
      addPicturesLoop disk (dictOf start pics) =
        some (pics.map PShape.picture) := by
  intro pics
  induction pics with
  | nil => intro start disk _; simp [dictOf, withIdx, addPicturesLoop]
  | cons p rest ih =>
    intro start disk hreads
    have hhead : pyReadFile disk (imgName start) = some p.blob :=
      hreads (start, p) (by rw [withIdx]; exact List.mem_cons_self _ _)
    have htail : ∀ e ∈ withIdx (start + 1) rest,
        pyReadFile disk (imgName e.1) = some e.2.blob :=
      fun e he => hreads e (by rw [withIdx]; exact List.mem_cons_of_mem _ he)
    have hdict : dictOf start (p :: rest) =
        (imgName start, p.left, p.top, p.width, p.height) ::
          dictOf (start + 1) rest := by
      simp [dictOf, withIdx]
    rw [hdict]
    simp only [addPicturesLoop, hhead, ih (start + 1) disk htail]
    rfl

/-- C9: every picture shape on a copied slide round-trips through the merge
step — the pictures of the new slide equal (bytes, left, top, width, height
and order included) the pictures of the source slide — and the temporary
image files removed at the end of `copy_slide` are exactly the ones it
created. -/
theorem c9_picture_roundtrip :
    ∀ slide : List PShape,
      ∃ r, copy_slide slide = some r ∧
        r.newShapes.filterMap pictureOf = slide.filterMap pictureOf ∧
        r.tempRemoved = r.tempCreated := by
  intro slide
  have hstate :
      copyShapesLoop slide { imgDict := [], disk := [], newShapes := [] } =
        { imgDict := dictOf 0 (slide.filterMap pictureOf),
          disk := diskOf 0 (slide.filterMap pictureOf),
          newShapes := [] ++ nonPictures slide } := by
    have h0 : ({ imgDict := [], disk := [], newShapes := [] } : CopySlideState) =
        { imgDict := dictOf 0 [], disk := diskOf 0 [],
          newShapes := ([] : List PShape) } := rfl
    rw [h0, copyShapesLoop_spec slide [] []]
    simp
  have hadd :
      addPicturesLoop (diskOf 0 (slide.filterMap pictureOf))
          (dictOf 0 (slide.filterMap pictureOf)) =
        some ((slide.filterMap pictureOf).map PShape.picture) :=
    addPicturesLoop_of_reads (slide.filterMap pictureOf) 0 _
      (fun e he => pyReadFile_diskOf _ 0 e he)
  refine ⟨⟨([] ++ nonPictures slide) ++ (slide.filterMap pictureOf).map PShape.picture, (diskOf 0 (slide.filterMap pictureOf)).map (fun e => e.1), (dictOf 0 (slide.filterMap pictureOf)).map (fun e => e.1)⟩, ?_, ?_, ?_⟩
  · simp only [copy_slide, hstate, hadd]
  · have h1 : (nonPictures slide).filterMap pictureOf = [] := by
      rw [List.filterMap_eq_nil_iff]
      intro s hs
      simp only [nonPictures, List.mem_filter] at hs
      obtain ⟨_, hpred⟩ := hs
      cases s with
      | picture q => exact absurd hpred Bool.false_ne_true
      | other e2 => rfl
    have h2 : ∀ X : List PictureData,
        (X.map PShape.picture).filterMap pictureOf = X := by
      intro X
      induction X with
      | nil => rfl
      | cons q qs ih => simp [List.filterMap_cons, pictureOf, ih]
    simp [List.filterMap_append, h1, h2]
  · simp [dictOf, diskOf, List.map_map]

/-- C8: an empty configuration query result makes the Config Loader raise
`ValueError("Specified page does not exist")`, and the run issues no export
request — `runExports` aborts with that same error for every chunk size. -/
theorem c8_empty_config_error :
    ∀ chunk_size : Int,
      load_report_config [] = .error "Specified page does not exist" ∧
      runExports [] chunk_size = .error "Specified page does not exist" := by
  intro chunk_size
  exact ⟨rfl, rfl⟩

end QVH
